import Mathlib

/-!
Shallow embedding of the comic-organizer metadata core
(`src/services/metadata.js`, `src/services/seriesDetection.js`,
`src/services/comicInfo.js`, `src/utils/files.js`,
`src/patterns/publishersPatterns.js`), together with theorems settling the
specification claims about it.

Strings are modelled as Lean `String`s; JavaScript's `null`/`undefined`
become `Option`; the effectful collaborators (archive reading, HTTP lookup)
are passed in as explicit oracle functions so that the resolver's control
flow is a pure function of its inputs.  Case mapping is modelled for ASCII,
which covers every string in the static tables and pattern catalogs.
-/

namespace ComicOrg

/-! ### Character classes (JS regex classes, ASCII) -/

def isWsChar (c : Char) : Bool :=
  c = ' ' || c = '\t' || c = '\n' || c = '\r' || c = '\x0b' || c = '\x0c'

def isDigitChar (c : Char) : Bool := '0' ≤ c && c ≤ '9'

def isAsciiLower (c : Char) : Bool := 'a' ≤ c && c ≤ 'z'

def isAsciiUpper (c : Char) : Bool := 'A' ≤ c && c ≤ 'Z'

def isAsciiLetter (c : Char) : Bool := isAsciiLower c || isAsciiUpper c

/-- JS regex `\w`. -/
def isWordChar (c : Char) : Bool := isAsciiLetter c || isDigitChar c || c = '_'

def lowerChar (c : Char) : Char :=
  if isAsciiUpper c then Char.ofNat (c.toNat + 32) else c

def upperChar (c : Char) : Char :=
  if isAsciiLower c then Char.ofNat (c.toNat - 32) else c

def lowerList (l : List Char) : List Char := l.map lowerChar

def upperList (l : List Char) : List Char := l.map upperChar

/-- `String.prototype.toLowerCase()` (ASCII case mapping). -/
def lowerStr (s : String) : String := ⟨lowerList s.data⟩

/-- `String.prototype.toUpperCase()` (ASCII case mapping). -/
def upperStr (s : String) : String := ⟨upperList s.data⟩

/-! ### Generic list/string helpers -/

/-- Is `pat` a contiguous sublist of `l`?  (JS `String.prototype.includes`;
an empty pattern is contained everywhere, as in JS.) -/
def containsSub (l pat : List Char) : Bool :=
  pat.isPrefixOf l ||
    match l with
    | [] => false
    | _ :: t => containsSub t pat

/-- `String.prototype.includes`. -/
def strIncludes (s pat : String) : Bool := containsSub s.data pat.data

/-- JS `String.prototype.trim()` (whitespace stripped from both ends). -/
def trimList (l : List Char) : List Char :=
  ((l.dropWhile isWsChar).reverse.dropWhile isWsChar).reverse

def trimStr (s : String) : String := ⟨trimList s.data⟩

/-- Replace every maximal run of characters satisfying `p` by a single
space (JS `replace(/[..]+/g, " ")`).  The extra `Nat` is recursion fuel
(any value at least the list length is enough); it keeps the definition
structurally recursive so that proofs can evaluate it. -/
def runsToSpaceGo (p : Char → Bool) : Nat → List Char → List Char
  | 0, l => l
  | _ + 1, [] => []
  | fuel + 1, c :: t =>
    if p c then ' ' :: runsToSpaceGo p fuel (t.dropWhile p)
    else c :: runsToSpaceGo p fuel t

def runsToSpace (p : Char → Bool) (l : List Char) : List Char :=
  runsToSpaceGo p l.length l

/-- Collapse whitespace runs to single spaces (JS `replace(/\s+/g, " ")`). -/
def collapseWs (l : List Char) : List Char := runsToSpace isWsChar l

/-- Replace each single character satisfying `p` by a space
(JS `replace(/[..]/g, " ")`, no `+`). -/
def charsToSpace (p : Char → Bool) (l : List Char) : List Char :=
  l.map (fun c => if p c then ' ' else c)

/-- Delete every character satisfying `p` (JS `replace(/[..]/g, "")`). -/
def deleteChars (p : Char → Bool) (l : List Char) : List Char :=
  l.filter (fun c => !(p c))

/-- Digits of a numeral, most significant first, to a `Nat`. -/
def digitsToNat (l : List Char) : Nat :=
  l.foldl (fun acc c => acc * 10 + (c.toNat - '0'.toNat)) 0

/-! ### `path` functions (Node `path`, POSIX) and the filename lexer
(`src/utils/files.js`) -/

/-- `path.basename`: the component after the last `/` (trailing slashes
dropped first). -/
def basenameList (l : List Char) : List Char :=
  ((l.reverse.dropWhile (· = '/')).takeWhile (· ≠ '/')).reverse

/-- Index (from the start) of the last `.` of `l`, if any. -/
def lastDotIdx? (l : List Char) : Option Nat :=
  match l.reverse.findIdx? (· = '.') with
  | none => none
  | some k => some (l.length - 1 - k)

/-- Node `path.extname` on a basename: suffix from the last dot, unless the
dot is the first character or there is no dot. -/
def extnameOfBase (b : List Char) : List Char :=
  match lastDotIdx? b with
  | none => []
  | some i => if i = 0 then [] else b.drop i

/-- Node `path.extname` of a path. -/
def extname (s : String) : String := ⟨extnameOfBase (basenameList s.data)⟩

/-- `getFilename` (`path.basename`). -/
def getFilename (s : String) : String := ⟨basenameList s.data⟩

/-- `getExtension` (`path.extname(..).toLowerCase()`). -/
def getExtension (s : String) : String := lowerStr (extname s)

/-- `path.basename(filename, path.extname(filename))`: the stem. -/
def stemOf (s : String) : List Char :=
  let b := basenameList s.data
  let e := extnameOfBase b
  b.take (b.length - e.length)

/-! ### `cleanFilenameForLookup` and the extractors (`src/utils/files.js`) -/

/-- For `replace(/\[.*?\]/g, "")`-style span removal: the tail after the
first closing character, provided no newline intervenes (`.` does not match
newlines). -/
def findClose? (close : Char) : List Char → Option (List Char)
  | [] => none
  | c :: t =>
    if c = close then some t
    else if c = '\n' then none
    else findClose? close t

/-- `replace(/\[.*?\]/g, "")` / `replace(/\(.*?\)/g, "")`: remove each
delimited span (lazy: up to the nearest closer on the same line).
Fuel-structured; `stripSpans` supplies sufficient fuel. -/
def stripSpansGo (opn close : Char) : Nat → List Char → List Char
  | 0, l => l
  | _ + 1, [] => []
  | fuel + 1, c :: t =>
    if c = opn then
      match findClose? close t with
      | some rest => stripSpansGo opn close fuel rest
      | none => c :: stripSpansGo opn close fuel t
    else c :: stripSpansGo opn close fuel t

def stripSpans (opn close : Char) (l : List Char) : List Char :=
  stripSpansGo opn close l.length l

/-- `replace(/v\d+/gi, "")`: drop every `v`/`V` that is followed by one or
more digits, together with those digits (greedy, global). -/
def rmVNumsGo : Nat → List Char → List Char
  | 0, l => l
  | _ + 1, [] => []
  | _ + 1, [c] => [c]
  | fuel + 1, c :: d :: t =>
    if (c = 'v' || c = 'V') && isDigitChar d then rmVNumsGo fuel (t.dropWhile isDigitChar)
    else c :: rmVNumsGo fuel (d :: t)

def rmVNums (l : List Char) : List Char := rmVNumsGo l.length l

/-- `replace(/#\d+/g, "")`. -/
def rmHashNumsGo : Nat → List Char → List Char
  | 0, l => l
  | _ + 1, [] => []
  | _ + 1, [c] => [c]
  | fuel + 1, c :: d :: t =>
    if c = '#' && isDigitChar d then rmHashNumsGo fuel (t.dropWhile isDigitChar)
    else c :: rmHashNumsGo fuel (d :: t)

def rmHashNums (l : List Char) : List Char := rmHashNumsGo l.length l

/-- `replace(/\d{4}/g, "")`: remove each non-overlapping run of exactly four
digits, scanning left to right. -/
def rmYearsGo : Nat → List Char → List Char
  | 0, l => l
  | fuel + 1, a :: b :: c :: d :: t =>
    if isDigitChar a && isDigitChar b && isDigitChar c && isDigitChar d then
      rmYearsGo fuel t
    else a :: rmYearsGo fuel (b :: c :: d :: t)
  | _ + 1, l => l

def rmYears (l : List Char) : List Char := rmYearsGo l.length l

/-- `cleanFilenameForLookup` (`src/utils/files.js`): strip the extension,
then remove bracketed/parenthesised spans, volume tokens, issue tokens and
4-digit runs, turn dash/underscore runs into spaces, collapse whitespace and
trim. -/
def cleanFilenameForLookup (filename : String) : String :=
  let cleaned := stemOf filename
  let cleaned := stripSpans '[' ']' cleaned
  let cleaned := stripSpans '(' ')' cleaned
  let cleaned := rmVNums cleaned
  let cleaned := rmHashNums cleaned
  let cleaned := rmYears cleaned
  let cleaned := runsToSpace (fun c => c = '-' || c = '_') cleaned
  let cleaned := collapseWs cleaned
  ⟨trimList cleaned⟩

/-- One attempt of `/#?(\d{1,4})\b/` at the current position: an optional
`#`, then a maximal digit run of length 1–4 ended by a word boundary (the
character after the run, if any, is not a word character; a shorter
backtracked run always abuts a digit and can never restore `\b`). -/
def issueAt (l : List Char) : Option Nat :=
  let l' := match l with
    | '#' :: t => t
    | _ => l
  let run := l'.takeWhile isDigitChar
  if 1 ≤ run.length && run.length ≤ 4 &&
      (match l'.drop run.length with
       | [] => true
       | c :: _ => !(isWordChar c)) then
    some (digitsToNat run)
  else none

/-- `extractIssueNumber`: first (leftmost) match of `/#?(\d{1,4})\b/`,
parsed as an integer.  A digit run longer than four digits fails the word
boundary at that position and the scan continues one character later. -/
def issueScan : List Char → Option Nat
  | [] => none
  | c :: t =>
    match issueAt (c :: t) with
    | some n => some n
    | none => issueScan t

def extractIssueNumber (filename : String) : Option Nat :=
  issueScan filename.data

/-- `extractYear`: first match of `/\b(19|20)\d{2}\b/`.  `prev` is the
character before the current position (for the leading word boundary). -/
def yearScanGo : Nat → Option Char → List Char → Option Nat
  | 0, _, _ => none
  | fuel + 1, prev, a :: b :: c :: d :: t =>
    if (match prev with | none => true | some p => !(isWordChar p)) &&
       ((a = '1' && b = '9') || (a = '2' && b = '0')) &&
       isDigitChar c && isDigitChar d &&
       (match t with | [] => true | e :: _ => !(isWordChar e)) then
      some (digitsToNat [a, b, c, d])
    else yearScanGo fuel (some a) (b :: c :: d :: t)
  | _ + 1, _, _ => none

def extractYear (filename : String) : Option Nat :=
  yearScanGo filename.data.length none filename.data

/-! ### Publisher data (`src/patterns/publishersPatterns.js`) -/

/-- `Object.values(PUBLISHERS)`, in declaration order. -/
def PUBLISHERS : List String :=
  ["Marvel", "DC Comics", "Image", "Dark Horse", "IDW", "Vertigo",
   "BOOM! Studios", "Valiant", "Oni Press", "Archie", "Titan", "AWA",
   "AfterShock", "Wildstorm", "Mad Cave", "Dynamite Entertainment"]

/-- `PUBLISHER_ALIASES` (lower-case keys to canonical names), in declaration
order. -/
def PUBLISHER_ALIASES : List (String × String) :=
  [("dark horse comics", "Dark Horse"),
   ("dark horse", "Dark Horse"),
   ("dc comics", "DC Comics"),
   ("dc", "DC Comics"),
   ("marvel comics", "Marvel"),
   ("marvel", "Marvel"),
   ("image comics", "Image"),
   ("image", "Image"),
   ("boom! studios", "BOOM! Studios"),
   ("boom studios", "BOOM! Studios"),
   ("boom", "BOOM! Studios"),
   ("idw publishing", "IDW"),
   ("idw", "IDW"),
   ("mad cave studios", "Mad Cave"),
   ("mad cave comics", "Mad Cave"),
   ("dynamite comics", "Dynamite Entertainment"),
   ("dynamite", "Dynamite Entertainment"),
   ("oni press", "Oni Press"),
   ("wildstorm productions", "Wildstorm")]

/-- JS property lookup `PUBLISHER_ALIASES[key]`. -/
def aliasLookup (key : String) : Option String :=
  (PUBLISHER_ALIASES.find? (fun kv => kv.1 = key)).map Prod.snd

/-- JS truthiness of a nullable string: `null`/`undefined`/`""` are falsy. -/
def jsTruthy : Option String → Bool
  | none => false
  | some s => s ≠ ""

/-- JS `a || b` on nullable strings. -/
def jsOr (a b : Option String) : Option String :=
  if jsTruthy a then a else b

/-- JS template interpolation of a value that is `null` when absent. -/
def tmplNull : Option String → String
  | none => "null"
  | some s => s

/-- JS template interpolation of a value that is `undefined` when absent. -/
def tmplUndef : Option String → String
  | none => "undefined"
  | some s => s

/-- `isKnownComicPublisher` (`src/services/metadata.js`). -/
def isKnownComicPublisher (publisher : Option String) : Bool :=
  if !(jsTruthy publisher) then false
  else
    let s := publisher.getD ""
    let publisherLower := lowerStr s
    (aliasLookup publisherLower).isSome ||
      PUBLISHERS.any (fun known => lowerStr known = publisherLower)

/-- `normalizePublisher` (`src/services/metadata.js`): canonicalize via the
alias table, keep known names unchanged, return `null` otherwise. -/
def normalizePublisher (publisher : Option String) : Option String :=
  match publisher with
  | none => none
  | some s =>
    if s = "" then none
    else
      let publisherLower := lowerStr s
      match aliasLookup publisherLower with
      | some v =>
        -- `if (normalized) return normalized` — truthiness check on the value
        if v ≠ "" then some v
        else if isKnownComicPublisher (some s) then some s else none
      | none =>
        if isKnownComicPublisher (some s) then some s else none

/-- `detectPublisher`: first canonical publisher name occurring (case
insensitively) as a substring of the filename. -/
def detectPublisher (filename : String) : Option String :=
  let upper := upperStr filename
  PUBLISHERS.find? (fun pub => strIncludes upper (upperStr pub))

/-! ### Series pattern catalog (`src/patterns/seriesPatterns.js`)

The standalone catalog module is imported by `services/metadata.js`; its
contents are the catalog inlined in the earlier revision of
`services/metadata.js` kept in the tree.  Each JS regex is represented by a
small fragment sequence (`Frag`) interpreted case-insensitively. -/

inductive Frag where
  /-- a literal (already lower-case) -/
  | lit (w : List Char)
  /-- `\s*` -/
  | ws0
  /-- `[-\s]?` -/
  | optDashWs
  /-- `\b` after the previous fragment -/
  | wb
  deriving Repr

/-- Match a fragment sequence at the head of `l` (already lower-cased);
the remainder of the string is unconstrained. -/
def fragsMatchAt : List Frag → List Char → Bool
  | [], _ => true
  | .lit w :: fs, l => w.isPrefixOf l && fragsMatchAt fs (l.drop w.length)
  | .ws0 :: fs, l => fragsMatchAt fs (l.dropWhile isWsChar)
  | .optDashWs :: fs, l =>
    (match l with
     | c :: rest => (c = '-' || isWsChar c) && fragsMatchAt fs rest
     | [] => false) || fragsMatchAt fs l
  | .wb :: fs, l =>
    (match l with | [] => true | c :: _ => !(isWordChar c)) && fragsMatchAt fs l

/-- Does the fragment sequence match at some position of `l`? -/
def fragsSearch (fs : List Frag) : List Char → Bool
  | [] => fragsMatchAt fs []
  | c :: t => fragsMatchAt fs (c :: t) || fragsSearch fs t

/-- `pattern.test(filename)` for a case-insensitive unanchored regex given
as fragments. -/
def testFrags (fs : List Frag) (s : String) : Bool :=
  fragsSearch fs (lowerList s.data)

structure SeriesPattern where
  test : String → Bool
  series : String
  publisher : String

def litF (w : String) : List Frag := [.lit w.data]

/-- `SERIES_PATTERNS`, in catalog order. -/
def SERIES_PATTERNS : List SeriesPattern :=
  [⟨testFrags (litF "batman"), "Batman", "DC Comics"⟩,
   ⟨testFrags (litF "superman"), "Superman", "DC Comics"⟩,
   ⟨testFrags [.lit "wonder".data, .ws0, .lit "woman".data], "Wonder Woman", "DC Comics"⟩,
   ⟨testFrags (litF "flash"), "The Flash", "DC Comics"⟩,
   ⟨testFrags [.lit "green".data, .ws0, .lit "lantern".data], "Green Lantern", "DC Comics"⟩,
   ⟨testFrags (litF "aquaman"), "Aquaman", "DC Comics"⟩,
   ⟨testFrags [.lit "justice".data, .ws0, .lit "league".data], "Justice League", "DC Comics"⟩,
   ⟨testFrags [.lit "spider".data, .optDashWs, .lit "man".data], "Spider-Man", "Marvel"⟩,
   ⟨testFrags [.lit "x".data, .optDashWs, .lit "men".data], "X-Men", "Marvel"⟩,
   ⟨testFrags (litF "avengers"), "Avengers", "Marvel"⟩,
   ⟨testFrags [.lit "iron".data, .ws0, .lit "man".data], "Iron Man", "Marvel"⟩,
   ⟨testFrags [.lit "captain".data, .ws0, .lit "america".data], "Captain America", "Marvel"⟩,
   ⟨testFrags [.lit "thor".data, .wb], "Thor", "Marvel"⟩,
   ⟨testFrags (litF "hulk"), "Hulk", "Marvel"⟩,
   ⟨testFrags (litF "daredevil"), "Daredevil", "Marvel"⟩,
   ⟨testFrags (litF "deadpool"), "Deadpool", "Marvel"⟩,
   ⟨testFrags (litF "wolverine"), "Wolverine", "Marvel"⟩,
   ⟨testFrags [.lit "fantastic".data, .ws0, .lit "four".data], "Fantastic Four", "Marvel"⟩,
   ⟨testFrags [.lit "walking".data, .ws0, .lit "dead".data], "The Walking Dead", "Image"⟩,
   ⟨testFrags (litF "spawn"), "Spawn", "Image"⟩,
   ⟨testFrags (litF "invincible"), "Invincible", "Image"⟩,
   ⟨testFrags [.lit "saga".data, .wb], "Saga", "Image"⟩,
   ⟨testFrags (litF "sandman"), "Sandman", "Vertigo"⟩,
   ⟨testFrags (litF "watchmen"), "Watchmen", "DC Comics"⟩,
   ⟨testFrags (litF "hellboy"), "Hellboy", "Dark Horse"⟩,
   ⟨fun s => testFrags (litF "tmnt") s ||
       testFrags [.lit "teenage".data, .ws0, .lit "mutant".data] s,
     "Teenage Mutant Ninja Turtles", "IDW"⟩,
   ⟨testFrags (litF "transformers"), "Transformers", "IDW"⟩,
   ⟨testFrags [.lit "star".data, .ws0, .lit "wars".data], "Star Wars", "Marvel"⟩]

/-- `detectSeriesFromPatterns`: first catalog entry whose regex matches. -/
def detectSeriesFromPatterns (filename : String) : Option (String × String) :=
  (SERIES_PATTERNS.find? (fun p => p.test filename)).map
    (fun p => (p.series, p.publisher))

/-! ### The embedded-metadata record and the lookup result -/

/-- The fields of a parsed `ComicInfo.xml` record consumed by the resolver
(`parseComicInfo` additionally produces creator/paging fields the resolver
never reads).  `none` is JS `null`. -/
structure ComicInfo where
  series : Option String := none
  number : Option ℚ := none
  volume : Option Int := none
  title : Option String := none
  publisher : Option String := none
  imprint : Option String := none
  year : Option Int := none
  writer : Option String := none
  summary : Option String := none
  storyArc : Option String := none
  format : Option String := none
  deriving Repr, DecidableEq

/-- The record `lookupGoogleBooks` builds from the first search item
(`volumeInfo` fields; `none` is an absent JS property).  Its `source`
field, always `"Google Books"`, is overwritten by the resolver and omitted
here. -/
structure ApiResult where
  title : Option String := none
  authors : List String := []
  publisher : Option String := none
  publishedDate : Option String := none
  description : Option String := none
  deriving Repr, DecidableEq

/-- `ComicMetadataRecord` — the resolver output. -/
structure MetaRecord where
  originalFilename : String
  cleanedName : String
  issueNumber : Option ℚ := none
  year : Option Int := none
  series : Option String := none
  publisher : Option String := none
  suggestedFolder : Option String := none
  confidence : String := "low"
  source : String := "filename-analysis"
  title : Option String := none
  volume : Option Int := none
  writer : Option String := none
  summary : Option String := none
  storyArc : Option String := none
  format : Option String := none
  authors : List String := []
  publishedDate : Option String := none
  description : Option String := none
  deriving Repr, DecidableEq

/-- Result of `getComicMetadata` plus a trace of which collaborators ran:
whether the lookup client was invoked and whether the pattern stage was
reached. -/
structure Resolved where
  record : MetaRecord
  apiCalled : Bool
  patternReached : Bool
  deriving Repr, DecidableEq

/-- JS truthiness of a nullable number (`0` is falsy). -/
def jsTruthyInt : Option Int → Bool
  | none => false
  | some n => n ≠ 0

/-! ### `getComicMetadata` (`src/services/metadata.js`)

The archive reader and the lookup client are oracle functions: `reader p`
is the value of `await readComicInfo(p)` and `lookup q` the value of
`await lookupGoogleBooks(q)`. -/

/-- PRIORITY 3: pattern matching fallback (lines 192–217). -/
def patternStage (filename cleanName : String) (base : MetaRecord) : MetaRecord :=
  let patternMatch := detectSeriesFromPatterns filename
  let detectedPublisher := detectPublisher filename
  let normalizedPatternPub := normalizePublisher (patternMatch.map Prod.snd)
  let normalizedDetectedPub := normalizePublisher detectedPublisher
  let m := { base with
    series := patternMatch.map Prod.fst,
    publisher := jsOr (jsOr normalizedPatternPub normalizedDetectedPub) none }
  let m :=
    match patternMatch with
    | some _ =>
      { m with confidence := "high",
               suggestedFolder := some (tmplNull m.publisher ++ "/" ++ tmplNull m.series),
               source := "pattern-match" }
    | none =>
      if jsTruthy normalizedDetectedPub then
        { m with confidence := "medium",
                 suggestedFolder :=
                   some (tmplNull normalizedDetectedPub ++ "/" ++ cleanName),
                 source := "publisher-detection" }
      else m
  match m.suggestedFolder with
  | some _ => m
  | none =>
    { m with
      suggestedFolder :=
        some (if jsTruthy m.publisher
              then tmplNull m.publisher ++ "/" ++ cleanName
              else "Unsorted/" ++ cleanName) }

/-- PRIORITY 2 (then 3): Google Books lookup if enabled (lines 160–190). -/
def apiStage (useApi : Bool) (filename cleanName : String)
    (lookup : String → Option ApiResult) (base : MetaRecord) : Resolved :=
  if useApi then
    match lookup cleanName with
    | some apiResult =>
      if jsTruthy apiResult.publisher then
        match normalizePublisher apiResult.publisher with
        | none =>
          { record := { base with
              series := apiResult.title,
              publisher := some "Unsorted",
              suggestedFolder := some ("Unsorted/" ++ tmplUndef apiResult.title),
              confidence := "medium",
              source := "api-lookup-non-comic-publisher" },
            apiCalled := true, patternReached := false }
        | some normalizedPub =>
          { record := { base with
              title := apiResult.title,
              authors := apiResult.authors,
              publishedDate := apiResult.publishedDate,
              description := apiResult.description,
              series := apiResult.title,
              publisher := some normalizedPub,
              suggestedFolder :=
                some (normalizedPub ++ "/" ++ tmplUndef apiResult.title),
              confidence := "high",
              source := "api-lookup" },
            apiCalled := true, patternReached := false }
      else
        { record := patternStage filename cleanName base,
          apiCalled := true, patternReached := true }
    | none =>
      { record := patternStage filename cleanName base,
        apiCalled := true, patternReached := true }
  else
    { record := patternStage filename cleanName base,
      apiCalled := false, patternReached := true }

/-- PRIORITY 1: the record built from an embedded `ComicInfo` whose series
field is truthy (lines 134–157). -/
def comicInfoStage (base : MetaRecord) (comicInfo : ComicInfo) : MetaRecord :=
  let normalizedPub := normalizePublisher (jsOr comicInfo.publisher comicInfo.imprint)
  { base with
    series := comicInfo.series,
    publisher := some (if jsTruthy normalizedPub
                       then tmplNull normalizedPub else "Unsorted"),
    issueNumber := match comicInfo.number with
      | some n => some n
      | none => base.issueNumber,
    year := if jsTruthyInt comicInfo.year then comicInfo.year else base.year,
    title := comicInfo.title,
    volume := comicInfo.volume,
    writer := comicInfo.writer,
    summary := comicInfo.summary,
    storyArc := comicInfo.storyArc,
    format := comicInfo.format,
    suggestedFolder :=
      some (if jsTruthy normalizedPub
            then tmplNull normalizedPub ++ "/" ++ tmplNull comicInfo.series
            else "Unsorted/" ++ tmplNull comicInfo.series),
    confidence := "highest",
    source := "comicinfo-xml" }

/-- The initial `metadata` object of `getComicMetadata` (the
`filename-analysis` skeleton). -/
def baseRecord (filename : String) : MetaRecord :=
  { originalFilename := filename,
    cleanedName := cleanFilenameForLookup filename,
    issueNumber := (extractIssueNumber filename).map (fun n => (n : ℚ)),
    year := (extractYear filename).map (fun n => (n : Int)) }

/-- `getComicMetadata`: ComicInfo.xml, then API lookup, then pattern
matching. -/
def getComicMetadata (filename : String) (useApi : Bool)
    (filePath : Option String)
    (reader : String → Option ComicInfo)
    (lookup : String → Option ApiResult) : Resolved :=
  let cleanName := cleanFilenameForLookup filename
  let base : MetaRecord := baseRecord filename
  -- PRIORITY 1: ComicInfo.xml if we have the file path
  let embedded : Option ComicInfo :=
    match filePath with
    | some p => reader p
    | none => none
  match embedded with
  | some comicInfo =>
    if jsTruthy comicInfo.series then
      { record := comicInfoStage base comicInfo,
        apiCalled := false, patternReached := false }
    else apiStage useApi filename cleanName lookup base
  | none => apiStage useApi filename cleanName lookup base

/-! ### Series detection (`src/services/seriesDetection.js`) -/

/-- `normalizeForComparison`: lowercase, drop apostrophes, punctuation to
spaces, collapse whitespace, trim. -/
def normalizeForComparison (s : String) : String :=
  let l := lowerList s.data
  let l := deleteChars (fun c => c = '\'') l
  let l := charsToSpace (fun c => c = '-' || c = '_' || c = ':' || c = ',' || c = '.') l
  let l := collapseWs l
  ⟨trimList l⟩

/-- Strip the extension once (`replace(/\.[^.]+$/, "")`). -/
def stripExtOnce (l : List Char) : List Char :=
  match lastDotIdx? l with
  | some i => if i + 1 < l.length then l.take i else l
  | none => l

/-- Lazy capture `^(.+?)(?:tail)`: the shortest non-empty prefix of
characters satisfying `dotOk` after which `tail` matches. -/
def lazyCaptureGo (dotOk : Char → Bool) (tail : List Char → Bool)
    (acc : List Char) : List Char → Option (List Char)
  | [] => none
  | c :: t =>
    if dotOk c then
      let acc' := acc ++ [c]
      if tail t then some acc' else lazyCaptureGo dotOk tail acc' t
    else none

def lazyCapture (dotOk : Char → Bool) (tail : List Char → Bool)
    (l : List Char) : Option (List Char) :=
  lazyCaptureGo dotOk tail [] l

/-- `.` in a JS regex (no newline). -/
def dotAny (c : Char) : Bool := c ≠ '\n'

/-- `\s+` with maximal munch; the rest of the input is returned. -/
def pWs1 : List Char → Option (List Char)
  | c :: t => if isWsChar c then some (t.dropWhile isWsChar) else none
  | [] => none

/-- `\d{min,}` with maximal munch. -/
def pDigits (mn : Nat) (l : List Char) : Option (List Char) :=
  let run := l.takeWhile isDigitChar
  if mn ≤ run.length then some (l.drop run.length) else none

def pChar (c : Char) : List Char → Option (List Char)
  | x :: t => if x = c then some t else none
  | [] => none

/-- `\d{n}` (exactly). -/
def pExactDigits (n : Nat) (l : List Char) : Option (List Char) :=
  if (l.take n).length = n && (l.take n).all isDigitChar then some (l.drop n)
  else none

/-- Case-insensitive literal prefix. -/
def ciPrefix (w : List Char) (l : List Char) : Option (List Char) :=
  if w.isPrefixOf (lowerList (l.take w.length)) then some (l.drop w.length)
  else none

/-- `/^(.+?)(?:\s+\d{3,}\s*\(\d{4}\))/i` tail. -/
def seriesTail1 (l : List Char) : Bool :=
  (((((pWs1 l).bind (pDigits 3)).map (·.dropWhile isWsChar)).bind
      (pChar '(')).bind (fun r => (pExactDigits 4 r).bind (pChar ')'))).isSome

/-- `/^(.+?)(?:\s+[Vv]\d+)/i` tail. -/
def seriesTail2 (l : List Char) : Bool :=
  ((pWs1 l).bind (fun r =>
    match r with
    | c :: t => if c = 'v' || c = 'V' then pDigits 1 t else none
    | [] => none)).isSome

/-- `/^(.+?)(?:\s*:\s*)/i` tail. -/
def seriesTail3 (l : List Char) : Bool :=
  (pChar ':' (l.dropWhile isWsChar)).isSome

/-- `/^(.+?)(?:\s+(?:Volume|Vol\.?|Book|Part|Chapter)\s*\d*)/i` tail
(`volume` is subsumed by the optional-dot `vol`; the trailing `\s*\d*`
always matches). -/
def seriesTail4 (l : List Char) : Bool :=
  ((pWs1 l).bind (fun r =>
    (ciPrefix "vol".data r).orElse (fun _ =>
    (ciPrefix "book".data r).orElse (fun _ =>
    (ciPrefix "part".data r).orElse (fun _ =>
    ciPrefix "chapter".data r))))).isSome

/-- `/^([a-z]+?)(?:volume|vol|book|part|issue)/i` word tail. -/
def seriesTail5 (l : List Char) : Bool :=
  ((ciPrefix "vol".data l).orElse (fun _ =>
   (ciPrefix "book".data l).orElse (fun _ =>
   (ciPrefix "part".data l).orElse (fun _ =>
   ciPrefix "issue".data l)))).isSome

/-- `\s*\d+` suffix used by the issue-marker tail. -/
def wsDigits1 (l : List Char) : Bool :=
  (pDigits 1 (l.dropWhile isWsChar)).isSome

/-- `/^(.+?)(?:\s+(?:#|Issue|No\.?)\s*\d+)/i` tail. -/
def seriesTail6 (l : List Char) : Bool :=
  ((pWs1 l).map (fun r =>
    match r with
    | '#' :: t => wsDigits1 t
    | _ =>
      match ciPrefix "issue".data r with
      | some t => wsDigits1 t
      | none =>
        match ciPrefix "no.".data r with
        | some t => wsDigits1 t || (match ciPrefix "no".data r with
            | some t' => wsDigits1 t'
            | none => false)
        | none =>
          match ciPrefix "no".data r with
          | some t => wsDigits1 t
          | none => false)).getD false

/-- `/^(.+?)(?:\s*\(\d{4}\))/i` tail. -/
def seriesTail7 (l : List Char) : Bool :=
  (((pChar '(' (l.dropWhile isWsChar)).bind (pExactDigits 4)).bind
    (pChar ')')).isSome

/-- `/^(.+?)(?:\s*[-–—]\s*)/i` tail (in `extractSeriesName` the plain `-`
has already been replaced by a space, but the class is kept faithful). -/
def seriesTail8 (l : List Char) : Bool :=
  match l.dropWhile isWsChar with
  | c :: _ => c = '-' || c = '–' || c = '—'
  | [] => false

/-- `/^(.+?)(?:\s+\d{3,})/i` tail. -/
def seriesTail9 (l : List Char) : Bool :=
  ((pWs1 l).bind (pDigits 3)).isSome

/-- `/^(.+?)(?:\s+\d{1,2})$/i` tail (anchored). -/
def seriesTail10 (l : List Char) : Bool :=
  match pWs1 l with
  | some r => r ≠ [] && r.all isDigitChar && r.length ≤ 2
  | none => false

/-- `/^([a-z]+?)(?:\d+)/i` tail. -/
def seriesTail11 (l : List Char) : Bool :=
  match l with
  | c :: _ => isDigitChar c
  | [] => false

/-- `/^(\w+)\s+/i`: greedy word run followed by whitespace. -/
def seriesPat12 (l : List Char) : Option (List Char) :=
  let run := l.takeWhile isWordChar
  if run ≠ [] && (match l.drop run.length with
                  | c :: _ => isWsChar c
                  | [] => false) then some run
  else none

/-- `extractSeriesName`: strip the extension and separators, then first
matching extraction pattern whose capture is longer than two characters
wins; otherwise the whole cleaned name. -/
def extractSeriesName (filename : String) : String :=
  let name := stripExtOnce filename.data
  let name := trimList (collapseWs (charsToSpace (fun c => c = '-' || c = '_') name))
  let caps : List (Option (List Char)) :=
    [lazyCapture dotAny seriesTail1 name,
     lazyCapture dotAny seriesTail2 name,
     lazyCapture dotAny seriesTail3 name,
     lazyCapture dotAny seriesTail4 name,
     lazyCapture isAsciiLetter seriesTail5 name,
     lazyCapture dotAny seriesTail6 name,
     lazyCapture dotAny seriesTail7 name,
     lazyCapture dotAny seriesTail8 name,
     lazyCapture dotAny seriesTail9 name,
     lazyCapture dotAny seriesTail10 name,
     lazyCapture isAsciiLetter seriesTail11 name,
     seriesPat12 name]
  let firstHit := caps.findSome? (fun cap =>
    match cap with
    | some m1 => if 2 < m1.length then some (trimList m1) else none
    | none => none)
  match firstHit with
  | some capture => ⟨capture⟩
  | none => ⟨name⟩

/-- JS `split(" ")` (single-space separator). -/
def splitOnSpace : List Char → List (List Char)
  | [] => [[]]
  | c :: t =>
    let rest := splitOnSpace t
    if c = ' ' then [] :: rest
    else match rest with
      | w :: ws => (c :: w) :: ws
      | [] => [[c]]

/-- Token set of a normalized name: words longer than two characters,
deduplicated (JS `new Set`). -/
def wordSet (l : List Char) : List (List Char) :=
  ((splitOnSpace l).filter (fun w => 2 < w.length)).dedup

/-- `calculateSimilarity`: exact normalized match, containment length
ratio, or shared-token ratio.  (JS measures lengths in UTF-16 units; for
the character data involved this coincides with character counts.) -/
def calculateSimilarity (str1 str2 : String) : ℚ :=
  let norm1 := normalizeForComparison str1
  let norm2 := normalizeForComparison str2
  if norm1 = norm2 then 1
  else if containsSub norm1.data norm2.data || containsSub norm2.data norm1.data then
    let shorter := if norm1.data.length < norm2.data.length then norm1 else norm2
    let longer := if norm1.data.length < norm2.data.length then norm2 else norm1
    mkRat shorter.data.length longer.data.length
  else
    let words1 := wordSet norm1.data
    let words2 := wordSet norm2.data
    if words1.length = 0 || words2.length = 0 then 0
    else mkRat (words1.countP (fun w => words2.contains w)) (max words1.length words2.length)

def SIMILARITY_THRESHOLD : ℚ := mkRat 1 2

structure SeriesGroup where
  seriesName : String
  files : List String
  fileCount : Nat
  deriving Repr, DecidableEq

/-- Series-name candidate of one file (`fileInfo[i].seriesName`). -/
def candOf (file : String) : String := extractSeriesName (getFilename file)

/-- `reduce` for the shortest candidate name (ties keep the earliest). -/
def shortestName (names : List String) (first : String) : String :=
  names.foldl (fun shortest f =>
    if f.data.length < shortest.data.length then f else shortest) first

/-- Capitalize the first letter of each word, lowercasing the rest. -/
def titleCase (s : String) : String :=
  ⟨List.intercalate [' ']
    ((splitOnSpace s.data).map (fun w =>
      match w with
      | [] => []
      | c :: t => upperChar c :: lowerList t))⟩

/-- Greedy single-pass clustering (the `processed`-set loop of
`detectSeriesGroups`, written as successive partitions: each head collects
every later not-yet-consumed file whose candidate similarity reaches the
threshold).  Fuel-structured; `detectSeriesGroups` supplies sufficient
fuel. -/
def groupPassGo : Nat → List String → List SeriesGroup
  | 0, _ => []
  | _ + 1, [] => []
  | fuel + 1, f :: rest =>
    let c := candOf f
    let isMatch := fun g =>
      decide (SIMILARITY_THRESHOLD ≤ calculateSimilarity c (candOf g))
    let matchingFiles := f :: rest.filter isMatch
    let remaining := rest.filter (fun g => !(isMatch g))
    (if 2 ≤ matchingFiles.length then
       [{ seriesName := titleCase (shortestName (matchingFiles.map candOf) c),
          files := matchingFiles,
          fileCount := matchingFiles.length }]
     else []) ++ groupPassGo fuel remaining

/-- Stable insertion into a list sorted by descending `fileCount`
(JS `sort((a, b) => b.fileCount - a.fileCount)` is stable). -/
def insertByCountDesc (g : SeriesGroup) : List SeriesGroup → List SeriesGroup
  | [] => [g]
  | h :: t =>
    if h.fileCount < g.fileCount then g :: h :: t
    else h :: insertByCountDesc g t

def sortByCountDesc (l : List SeriesGroup) : List SeriesGroup :=
  l.foldl (fun acc g => insertByCountDesc g acc) []

/-- `detectSeriesGroups` — note that it takes only the file list; it has no
metadata parameter. -/
def detectSeriesGroups (files : List String) : List SeriesGroup :=
  sortByCountDesc (groupPassGo files.length files)

/-! ### Collaborator boundaries (`lookupGoogleBooks`, `readComicInfo`) with
their effects reified -/

/-- One `items[i].volumeInfo` object of the Google Books response. -/
structure ApiVolume where
  title : Option String := none
  authors : Option (List String) := none
  publisher : Option String := none
  publishedDate : Option String := none
  description : Option String := none
  deriving Repr, DecidableEq

/-- Outcome of `fetch` + `response.json()` as the client observes it:
`abort` is any thrown transport or JSON-parse error (caught by the
client), `notOk` a non-success HTTP status, `ok items?` a parsed body with
its optional `items` array. -/
inductive FetchOutcome where
  | abort
  | notOk
  | ok (items : Option (List ApiVolume))
  deriving Repr, DecidableEq

/-- `lookupGoogleBooks` (`src/services/metadata.js`): converts every
failure to `null` and otherwise reads the first item. -/
def lookupGoogleBooks : FetchOutcome → Option ApiResult
  | .abort => none
  | .notOk => none
  | .ok none => none
  | .ok (some []) => none
  | .ok (some (book :: _)) =>
    some { title := book.title,
           authors := book.authors.getD [],
           publisher := book.publisher,
           publishedDate := book.publishedDate,
           description := book.description }

/-- `extractComicInfoFromCBZ`/`CBR` (`src/services/comicInfo.js`): the
archive is an entry list (name, contents), `none` when opening or reading
threw; the conventional entry name is matched case-insensitively. -/
def extractComicInfoEntry (entries : Option (List (String × String))) :
    Option String :=
  match entries with
  | none => none
  | some es =>
    (es.find? (fun e => lowerStr e.1 = "comicinfo.xml")).map Prod.snd

/-- `readComicInfo` (`src/services/comicInfo.js`): only `.cbz`/`.cbr`
containers are probed; a missing entry or a parse failure yields `null`.
`parse` is `parseComicInfo`, which returns `null` on malformed markup. -/
def readComicInfo (filePath : String)
    (cbzEntries cbrEntries : String → Option (List (String × String)))
    (parse : String → Option ComicInfo) : Option ComicInfo :=
  let ext := lowerStr (extname filePath)
  let xmlContent : Option String :=
    if ext = ".cbz" then extractComicInfoEntry (cbzEntries filePath)
    else if ext = ".cbr" then extractComicInfoEntry (cbrEntries filePath)
    else none
  if ext = ".cbz" || ext = ".cbr" then
    match xmlContent with
    | none => none
    | some xml => if xml = "" then none else parse xml
  else none

/-- Did the ComicInfo stage terminate the resolver?  (`filePath` supplied,
the reader produced a record, and its series field is truthy.) -/
def embeddedHit (filePath : Option String)
    (reader : String → Option ComicInfo) : Bool :=
  match filePath with
  | none => false
  | some p =>
    match reader p with
    | none => false
    | some ci => jsTruthy ci.series

/-! ### Concrete collaborator fixtures used in the theorems below -/

def readerNone : String → Option ComicInfo := fun _ => none

def lookupNone : String → Option ApiResult := fun _ => none

/-- An embedded record as the integration fixtures build it. -/
def ciBatman : ComicInfo :=
  { series := some "Batman", publisher := some "DC Comics",
    number := some 1, year := some 2023, title := some "The Dark Knight" }

def readerBatman : String → Option ComicInfo := fun _ => some ciBatman

/-- A lookup result with a recognized comic publisher. -/
def apiMarvel : ApiResult :=
  { title := some "Spider-Man", publisher := some "Marvel Comics" }

def lookupMarvel : String → Option ApiResult := fun _ => some apiMarvel

/-- A lookup result with an unrecognized (non-comic) publisher. -/
def apiRandomHouse : ApiResult :=
  { title := some "Some Book", publisher := some "Random House",
    publishedDate := some "2023" }

def lookupRandomHouse : String → Option ApiResult := fun _ => some apiRandomHouse

end ComicOrg

namespace ComicOrg

/-! ## Helper lemmas -/

theorem aliasLookup_val_ne_empty {k v : String} (h : aliasLookup k = some v) :
    v ≠ "" := by
  unfold aliasLookup at h
  cases hf : PUBLISHER_ALIASES.find? (fun kv => kv.1 = k) with
  | none => rw [hf] at h; simp at h
  | some kv =>
    rw [hf] at h
    simp at h
    have hmem := List.mem_of_find?_eq_some hf
    have hne : ∀ x ∈ PUBLISHER_ALIASES, x.2 ≠ "" := by decide
    exact h ▸ hne kv hmem

theorem normalizePublisher_ne_empty {o : Option String} {t : String}
    (h : normalizePublisher o = some t) : t ≠ "" := by
  cases o with
  | none => exact Option.noConfusion h
  | some s =>
    by_cases hs : s = ""
    · rw [normalizePublisher, if_pos hs] at h
      exact Option.noConfusion h
    · rw [normalizePublisher, if_neg hs] at h
      simp only [] at h
      cases ha : aliasLookup (lowerStr s) with
      | some v =>
        rw [ha] at h
        simp only [] at h
        by_cases hv : v = ""
        · rw [if_neg (not_not_intro hv)] at h
          by_cases hk : isKnownComicPublisher (some s) = true
          · rw [if_pos hk] at h
            exact (Option.some.inj h) ▸ hs
          · rw [if_neg hk] at h
            exact Option.noConfusion h
        · rw [if_pos hv] at h
          exact (Option.some.inj h) ▸ hv
      | none =>
        rw [ha] at h
        simp only [] at h
        by_cases hk : isKnownComicPublisher (some s) = true
        · rw [if_pos hk] at h
          exact (Option.some.inj h) ▸ hs
        · rw [if_neg hk] at h
          exact Option.noConfusion h

theorem jsOr_none_right_ne_empty {a : Option String} {t : String}
    (h : jsOr a none = some t) : t ≠ "" := by
  unfold jsOr at h
  split at h
  · next htr =>
    cases a with
    | none => simp [jsTruthy] at htr
    | some s =>
      simp at h
      simp [jsTruthy] at htr
      exact h ▸ htr
  · simp at h

theorem jsTruthy_eq_true {s : String} (h : s ≠ "") :
    jsTruthy (some s) = true := by
  simp [jsTruthy, h]

/-- `dropWhile` is idempotent. -/
theorem dropWhile_dropWhile (p : Char → Bool) (l : List Char) :
    (l.dropWhile p).dropWhile p = l.dropWhile p := by
  induction l with
  | nil => rfl
  | cons c t ih =>
    by_cases hc : p c
    · simp [List.dropWhile_cons, hc, ih]
    · simp [List.dropWhile_cons, hc]

theorem trimList_eq_rdropWhile (l : List Char) :
    trimList l = List.rdropWhile isWsChar (l.dropWhile isWsChar) := rfl

theorem trimList_trimList (l : List Char) :
    trimList (trimList l) = trimList l := by
  rw [trimList_eq_rdropWhile, trimList_eq_rdropWhile]
  have h1 : (List.rdropWhile isWsChar (l.dropWhile isWsChar)).dropWhile isWsChar
      = List.rdropWhile isWsChar (l.dropWhile isWsChar) := by
    rw [List.dropWhile_eq_self_iff]
    intro hl
    have hpre : List.rdropWhile isWsChar (l.dropWhile isWsChar) <+: l.dropWhile isWsChar :=
      List.rdropWhile_prefix _ _
    have hlen : 0 < (l.dropWhile isWsChar).length := lt_of_lt_of_le hl hpre.length_le
    have hMok := (List.dropWhile_eq_self_iff).mp (dropWhile_dropWhile isWsChar l) hlen
    have hget : (List.rdropWhile isWsChar (l.dropWhile isWsChar)).get ⟨0, hl⟩
        = (l.dropWhile isWsChar).get ⟨0, hlen⟩ := by
      simp only [List.get_eq_getElem]
      exact List.IsPrefix.getElem hpre hl
    rw [hget]
    exact hMok
  rw [h1, List.rdropWhile_eq_self_iff]
  intro hl
  exact List.rdropWhile_last_not _ _ hl

/-! ## Claim C6 — publisher normalization -/

/-- C6: `normalizePublisher` returns `null` for absent or empty names;
every name whose lowercase form is an alias-table key — regardless of the
input's casing — is mapped to that key's canonical value; a known publisher
that is not an alias key is returned unchanged; anything else yields
`null`; every alias key normalizes to its table value and normalization is
idempotent on the canonical names. -/
theorem claim_C6_normalizePublisher :
    normalizePublisher none = none ∧
    normalizePublisher (some "") = none ∧
    (∀ kv ∈ PUBLISHER_ALIASES, normalizePublisher (some kv.1) = some kv.2) ∧
    (∀ (s v : String), aliasLookup (lowerStr s) = some v →
      normalizePublisher (some s) = some v) ∧
    (∀ s : String, s ≠ "" → aliasLookup (lowerStr s) = none →
      isKnownComicPublisher (some s) = true →
      normalizePublisher (some s) = some s) ∧
    (∀ s : String, isKnownComicPublisher (some s) = false →
      normalizePublisher (some s) = none) ∧
    (∀ c ∈ PUBLISHERS, normalizePublisher (some c) = some c ∧
      normalizePublisher (normalizePublisher (some c)) =
        normalizePublisher (some c)) := by
  refine ⟨rfl, rfl, by decide, ?_, ?_, ?_, by decide⟩
  · intro s v hsv
    by_cases hs : s = ""
    · rw [hs] at hsv
      have hnone : aliasLookup (lowerStr "") = none := by decide
      rw [hnone] at hsv
      exact Option.noConfusion hsv
    · rw [normalizePublisher, if_neg hs]
      simp only []
      rw [hsv]
      simp only []
      rw [if_pos (aliasLookup_val_ne_empty hsv)]
  · intro s hs ha hk
    rw [normalizePublisher, if_neg hs]
    simp only []
    rw [ha]
    simp only []
    rw [if_pos hk]
  · intro s hk
    by_cases hs : s = ""
    · rw [normalizePublisher, if_pos hs]
    · rw [normalizePublisher, if_neg hs]
      simp only []
      have ha : aliasLookup (lowerStr s) = none := by
        cases hal : aliasLookup (lowerStr s) with
        | none => rfl
        | some v =>
          exfalso
          have htrue : isKnownComicPublisher (some s) = true := by
            rw [isKnownComicPublisher]
            rw [if_neg (by simp [jsTruthy, hs])]
            simp only [Option.getD_some]
            rw [hal]
            simp
          rw [hk] at htrue
          exact Bool.noConfusion htrue
      rw [ha]
      simp only []
      rw [if_neg (by rw [hk]; simp)]

/-- C6 witness: the theorem applied at concrete table entries and names,
including mixed-case alias inputs. -/
theorem claim_C6_normalizePublisher_witness :
    normalizePublisher (some "dc") = some "DC Comics" ∧
    normalizePublisher (some "Marvel Comics") = some "Marvel" ∧
    normalizePublisher (some "Boom Studios") = some "BOOM! Studios" ∧
    normalizePublisher (some "Vertigo") = some "Vertigo" ∧
    normalizePublisher (some "Random House") = none ∧
    normalizePublisher (normalizePublisher (some "DC Comics")) =
      normalizePublisher (some "DC Comics") :=
  ⟨claim_C6_normalizePublisher.2.2.1 ("dc", "DC Comics") (by decide),
   claim_C6_normalizePublisher.2.2.2.1 "Marvel Comics" "Marvel" (by decide),
   claim_C6_normalizePublisher.2.2.2.1 "Boom Studios" "BOOM! Studios" (by decide),
   claim_C6_normalizePublisher.2.2.2.2.1 "Vertigo" (by decide) (by decide) (by decide),
   claim_C6_normalizePublisher.2.2.2.2.2.1 "Random House" (by decide),
   (claim_C6_normalizePublisher.2.2.2.2.2.2 "DC Comics" (by decide)).2⟩

/-! ## Claim C8 — the filename cleaner -/

/-- C8: `cleanFilenameForLookup` performs extension stripping, span/token
removal, separator conversion, whitespace collapsing and trimming, always
returning a (possibly empty) string; its output is already trimmed, and on
`"The_Walking_Dead_#001_(2023)_[Digital].cbz"` it (with or without a
further `trim`) equals `"The Walking Dead"`. -/
theorem claim_C8_cleanFilenameForLookup :
    cleanFilenameForLookup "The_Walking_Dead_#001_(2023)_[Digital].cbz"
      = "The Walking Dead" ∧
    trimStr (cleanFilenameForLookup "The_Walking_Dead_#001_(2023)_[Digital].cbz")
      = "The Walking Dead" ∧
    ∀ filename : String,
      trimStr (cleanFilenameForLookup filename) = cleanFilenameForLookup filename := by
  refine ⟨by decide, by decide, ?_⟩
  intro f
  simp only [trimStr, cleanFilenameForLookup]
  exact congrArg String.mk (trimList_trimList _)

/-! ## Claim C9 — collaborator error boundaries -/

/-- C9: the lookup client returns `null` on a thrown transport/parse error,
a non-success status, and a missing or empty `items` array; the embedded
reader returns `null` for unsupported container extensions, when the
archive cannot be opened, when no `ComicInfo.xml` entry exists (matched
case-insensitively), and when parsing fails — neither ever throws, being
total functions of their reified outcomes. -/
theorem claim_C9_error_boundaries :
    lookupGoogleBooks .abort = none ∧
    lookupGoogleBooks .notOk = none ∧
    lookupGoogleBooks (.ok none) = none ∧
    lookupGoogleBooks (.ok (some [])) = none ∧
    (∀ (p : String) cbz cbr parse,
      lowerStr (extname p) ≠ ".cbz" → lowerStr (extname p) ≠ ".cbr" →
      readComicInfo p cbz cbr parse = none) ∧
    (∀ (p : String) cbz cbr parse,
      cbz p = none → cbr p = none → readComicInfo p cbz cbr parse = none) ∧
    (∀ (p : String) cbz cbr parse es fs,
      cbz p = some es → cbr p = some fs →
      (∀ e ∈ es, lowerStr e.1 ≠ "comicinfo.xml") →
      (∀ e ∈ fs, lowerStr e.1 ≠ "comicinfo.xml") →
      readComicInfo p cbz cbr parse = none) ∧
    (∀ (p : String) cbz cbr parse,
      (∀ xml : String, parse xml = none) →
      readComicInfo p cbz cbr parse = none) := by
  refine ⟨rfl, rfl, rfl, rfl, ?_, ?_, ?_, ?_⟩
  · intro p cbz cbr parse h1 h2
    simp [readComicInfo, h1, h2]
  · intro p cbz cbr parse h1 h2
    by_cases e1 : lowerStr (extname p) = ".cbz"
    · simp [readComicInfo, e1, h1, extractComicInfoEntry]
    · by_cases e2 : lowerStr (extname p) = ".cbr"
      · simp [readComicInfo, e1, e2, h2, extractComicInfoEntry]
      · simp [readComicInfo, e1, e2]
  · intro p cbz cbr parse es fs h1 h2 hes hfs
    have fes : es.find? (fun e => lowerStr e.1 = "comicinfo.xml") = none := by
      rw [List.find?_eq_none]
      intro e he
      simpa using hes e he
    have ffs : fs.find? (fun e => lowerStr e.1 = "comicinfo.xml") = none := by
      rw [List.find?_eq_none]
      intro e he
      simpa using hfs e he
    by_cases e1 : lowerStr (extname p) = ".cbz"
    · simp [readComicInfo, e1, h1, extractComicInfoEntry, fes]
    · by_cases e2 : lowerStr (extname p) = ".cbr"
      · simp [readComicInfo, e1, e2, h2, extractComicInfoEntry, ffs]
      · simp [readComicInfo, e1, e2]
  · intro p cbz cbr parse hparse
    by_cases e1 : lowerStr (extname p) = ".cbz"
    · have hred : readComicInfo p cbz cbr parse =
          (match extractComicInfoEntry (cbz p) with
           | none => none
           | some xml => if xml = "" then none else parse xml) := by
        simp [readComicInfo, e1]
      rw [hred]
      cases extractComicInfoEntry (cbz p) with
      | none => rfl
      | some xml =>
        by_cases hx : xml = ""
        · simp [hx]
        · simp [hx, hparse xml]
    · by_cases e2 : lowerStr (extname p) = ".cbr"
      · have hred : readComicInfo p cbz cbr parse =
            (match extractComicInfoEntry (cbr p) with
             | none => none
             | some xml => if xml = "" then none else parse xml) := by
          simp [readComicInfo, e1, e2]
        rw [hred]
        cases extractComicInfoEntry (cbr p) with
        | none => rfl
        | some xml =>
          by_cases hx : xml = ""
          · simp [hx]
          · simp [hx, hparse xml]
      · simp [readComicInfo, e1, e2]

/-! ## Stage-reduction lemmas for the resolver -/

theorem getComicMetadata_embedded_miss
    {filePath : Option String} {reader : String → Option ComicInfo}
    (filename : String) (useApi : Bool) (lookup : String → Option ApiResult)
    (h : embeddedHit filePath reader = false) :
    getComicMetadata filename useApi filePath reader lookup =
      apiStage useApi filename (cleanFilenameForLookup filename) lookup
        (baseRecord filename) := by
  cases filePath with
  | none => simp [getComicMetadata]
  | some p =>
    cases hrp : reader p with
    | none => simp [getComicMetadata, hrp]
    | some ci =>
      have hser : jsTruthy ci.series = false := by
        rw [embeddedHit, hrp] at h
        exact h
      simp [getComicMetadata, hrp, hser]

theorem getComicMetadata_embedded_hit
    {filePath : Option String} {reader : String → Option ComicInfo}
    {p : String} {ci : ComicInfo}
    (filename : String) (useApi : Bool) (lookup : String → Option ApiResult)
    (hp : filePath = some p) (hr : reader p = some ci)
    (ht : jsTruthy ci.series = true) :
    getComicMetadata filename useApi filePath reader lookup =
      ⟨comicInfoStage (baseRecord filename) ci, false, false⟩ := by
  subst hp
  simp [getComicMetadata, hr, ht]

theorem tmplNull_jsOr_ne_empty (a : Option String) :
    tmplNull (jsOr a none) ≠ "" := by
  cases h : jsOr a none with
  | none => simp [tmplNull]
  | some t => simpa [tmplNull] using jsOr_none_right_ne_empty h

theorem tmplNull_truthy_ne_empty {a : Option String}
    (h : jsTruthy a = true) : tmplNull a ≠ "" := by
  cases a with
  | none => simp [jsTruthy] at h
  | some t =>
    simp [jsTruthy] at h
    simpa [tmplNull] using h

theorem jsTruthy_ne_none {a : Option String} (h : jsTruthy a = true) :
    a ≠ none := by
  cases a with
  | none => simp [jsTruthy] at h
  | some t => exact Option.noConfusion

/-- The pattern stage always emits a folder split at a `/` after a
non-empty publisher-or-`Unsorted` segment. -/
theorem patternStage_folder (filename cleanName : String) (base : MetaRecord)
    (hb : base.suggestedFolder = none) :
    ∃ x y, (patternStage filename cleanName base).suggestedFolder
      = some (x ++ "/" ++ y) ∧ x ≠ "" := by
  cases hpm : detectSeriesFromPatterns filename with
  | some pr =>
    simp only [patternStage, hpm]
    exact ⟨_, _, rfl, tmplNull_jsOr_ne_empty _⟩
  | none =>
    by_cases hnd : jsTruthy (normalizePublisher (detectPublisher filename)) = true
    · simp only [patternStage, hpm, hnd, if_true]
      exact ⟨_, _, rfl, tmplNull_truthy_ne_empty hnd⟩
    · have hnd' : jsTruthy (normalizePublisher (detectPublisher filename)) = false := by
        revert hnd
        cases jsTruthy (normalizePublisher (detectPublisher filename)) <;> simp
      simp only [patternStage, hpm, hnd', Bool.false_eq_true, if_false, hb]
      by_cases hpub : jsTruthy (jsOr (jsOr (normalizePublisher
          ((none : Option (String × String)).map Prod.snd))
          (normalizePublisher (detectPublisher filename))) none) = true
      · simp only [hpub, if_true]
        exact ⟨_, _, rfl, tmplNull_truthy_ne_empty hpub⟩
      · have hpub' := Bool.eq_false_iff.mpr hpub
        simp only [hpub', Bool.false_eq_true, if_false]
        exact ⟨"Unsorted", cleanName, rfl, by decide⟩

/-- Classification of the pattern stage: the series field is null exactly
off the pattern-match branch; `filename-analysis` keeps the base source
with no publisher, `publisher-detection` carries one, and the fallback
folder of the no-pattern-no-publisher case is `Unsorted/{cleanedName}`. -/
theorem patternStage_classify (filename cleanName : String) (base : MetaRecord)
    (hb : base.suggestedFolder = none) (hsrc : base.source = "filename-analysis") :
    ((patternStage filename cleanName base).series = none →
      (patternStage filename cleanName base).source = "filename-analysis" ∨
      (patternStage filename cleanName base).source = "publisher-detection") ∧
    ((patternStage filename cleanName base).source = "filename-analysis" →
      (patternStage filename cleanName base).publisher = none ∧
      (patternStage filename cleanName base).series = none ∧
      (patternStage filename cleanName base).suggestedFolder
        = some ("Unsorted/" ++ cleanName)) ∧
    ((patternStage filename cleanName base).source = "publisher-detection" →
      (patternStage filename cleanName base).publisher ≠ none) ∧
    (patternStage filename cleanName base).suggestedFolder ≠ none := by
  cases hpm : detectSeriesFromPatterns filename with
  | some pr =>
    simp only [patternStage, hpm]
    refine ⟨fun hser => ?_, fun hso => ?_, fun hso => ?_, by simp⟩
    · simp at hser
    · simp at hso
    · simp at hso
  | none =>
    by_cases hnd : jsTruthy (normalizePublisher (detectPublisher filename)) = true
    · simp only [patternStage, hpm, hnd, if_true]
      refine ⟨fun _ => Or.inr trivial, fun hso => ?_, fun _ => ?_, by simp⟩
      · simp at hso
      · have e1 : jsOr (normalizePublisher
            ((none : Option (String × String)).map Prod.snd))
            (normalizePublisher (detectPublisher filename))
            = normalizePublisher (detectPublisher filename) := rfl
        have e2 : jsOr (jsOr (normalizePublisher
            ((none : Option (String × String)).map Prod.snd))
            (normalizePublisher (detectPublisher filename))) none
            = normalizePublisher (detectPublisher filename) := by
          rw [e1]
          simp [jsOr, hnd]
        simp only [e2]
        exact jsTruthy_ne_none hnd
    · have hnd' : jsTruthy (normalizePublisher (detectPublisher filename)) = false := by
        revert hnd
        cases jsTruthy (normalizePublisher (detectPublisher filename)) <;> simp
      have hpubnone : jsOr (jsOr (normalizePublisher
          ((none : Option (String × String)).map Prod.snd))
          (normalizePublisher (detectPublisher filename))) none = none := by
        have e1 : jsOr (normalizePublisher
            ((none : Option (String × String)).map Prod.snd))
            (normalizePublisher (detectPublisher filename))
            = normalizePublisher (detectPublisher filename) := rfl
        rw [e1]
        simp [jsOr, hnd']
      simp only [patternStage, hpm, hnd', Bool.false_eq_true, if_false, hb, hpubnone]
      refine ⟨fun _ => Or.inl hsrc, fun _ => ⟨trivial, rfl, ?_⟩, fun hso => ?_, by simp⟩
      · simp [jsTruthy]
      · rw [hsrc] at hso
        simp at hso

/-- C9 witness: the boundary cases evaluated at concrete inputs. -/
theorem claim_C9_error_boundaries_witness :
    readComicInfo "a.pdf" (fun _ => none) (fun _ => none) (fun _ => none) = none ∧
    readComicInfo "a.cbz" (fun _ => none) (fun _ => none) (fun _ => none) = none ∧
    readComicInfo "a.cbz" (fun _ => some [("page1.jpg", "x")])
      (fun _ => some []) (fun _ => none) = none ∧
    readComicInfo "a.cbz" (fun _ => some [("ComicInfo.xml", "<bad")])
      (fun _ => none) (fun _ => none) = none :=
  ⟨claim_C9_error_boundaries.2.2.2.2.1 "a.pdf" _ _ _ (by decide) (by decide),
   claim_C9_error_boundaries.2.2.2.2.2.1 "a.cbz" _ _ _ rfl rfl,
   claim_C9_error_boundaries.2.2.2.2.2.2.1 "a.cbz" _ _ _ _ _ rfl rfl
     (by decide) (by decide),
   claim_C9_error_boundaries.2.2.2.2.2.2.2 "a.cbz" _ _ _ (fun _ => rfl)⟩

/-- The lookup-or-pattern tail of the resolver: the four series/source
classification facts plus the shape of the no-publisher fallback folder. -/
theorem apiStage_classify (filename : String) (useApi : Bool)
    (lookup : String → Option ApiResult)
    (hTitle : ∀ q r, lookup q = some r → r.title ≠ none) :
    (apiStage useApi filename (cleanFilenameForLookup filename) lookup
        (baseRecord filename)).record.suggestedFolder ≠ none ∧
    ((apiStage useApi filename (cleanFilenameForLookup filename) lookup
        (baseRecord filename)).record.series = none →
      (apiStage useApi filename (cleanFilenameForLookup filename) lookup
        (baseRecord filename)).record.source = "filename-analysis" ∨
      (apiStage useApi filename (cleanFilenameForLookup filename) lookup
        (baseRecord filename)).record.source = "publisher-detection") ∧
    ((apiStage useApi filename (cleanFilenameForLookup filename) lookup
        (baseRecord filename)).record.source = "filename-analysis" →
      (apiStage useApi filename (cleanFilenameForLookup filename) lookup
        (baseRecord filename)).record.publisher = none ∧
      (apiStage useApi filename (cleanFilenameForLookup filename) lookup
        (baseRecord filename)).record.series = none ∧
      (apiStage useApi filename (cleanFilenameForLookup filename) lookup
        (baseRecord filename)).record.suggestedFolder
        = some ("Unsorted/" ++ cleanFilenameForLookup filename)) ∧
    ((apiStage useApi filename (cleanFilenameForLookup filename) lookup
        (baseRecord filename)).record.source = "publisher-detection" →
      (apiStage useApi filename (cleanFilenameForLookup filename) lookup
        (baseRecord filename)).record.publisher ≠ none) := by
  have hc := patternStage_classify filename (cleanFilenameForLookup filename)
    (baseRecord filename) rfl rfl
  cases useApi with
  | false =>
    simp only [apiStage, Bool.false_eq_true, if_false]
    exact ⟨hc.2.2.2, hc.1, hc.2.1, hc.2.2.1⟩
  | true =>
    simp only [apiStage, if_true]
    cases hlk : lookup (cleanFilenameForLookup filename) with
    | none =>
      exact ⟨hc.2.2.2, hc.1, hc.2.1, hc.2.2.1⟩
    | some r =>
      by_cases htr : jsTruthy r.publisher = true
      · simp only [htr, if_true]
        cases hn : normalizePublisher r.publisher with
        | none =>
          refine ⟨by simp, fun hser => absurd hser (hTitle _ _ hlk),
            fun hso => ?_, fun hso => ?_⟩
          · simp at hso
          · simp at hso
        | some np =>
          refine ⟨by simp, fun hser => absurd hser (hTitle _ _ hlk),
            fun hso => ?_, fun hso => ?_⟩
          · simp at hso
          · simp at hso
      · have htr' : jsTruthy r.publisher = false := by
          revert htr
          cases jsTruthy r.publisher <;> simp
        simp only [htr', Bool.false_eq_true, if_false]
        exact ⟨hc.2.2.2, hc.1, hc.2.1, hc.2.2.1⟩

/-- The folder of the lookup-or-pattern tail always splits at a `/` after a
non-empty first segment. -/
theorem apiStage_folder (filename : String) (useApi : Bool)
    (lookup : String → Option ApiResult) :
    ∃ x y, (apiStage useApi filename (cleanFilenameForLookup filename) lookup
        (baseRecord filename)).record.suggestedFolder
      = some (x ++ "/" ++ y) ∧ x ≠ "" := by
  have hp := patternStage_folder filename (cleanFilenameForLookup filename)
    (baseRecord filename) rfl
  cases useApi with
  | false =>
    simp only [apiStage, Bool.false_eq_true, if_false]
    exact hp
  | true =>
    simp only [apiStage, if_true]
    cases hlk : lookup (cleanFilenameForLookup filename) with
    | none => exact hp
    | some r =>
      by_cases htr : jsTruthy r.publisher = true
      · simp only [htr, if_true]
        cases hn : normalizePublisher r.publisher with
        | none =>
          exact ⟨"Unsorted", tmplUndef r.title, rfl, by decide⟩
        | some np =>
          exact ⟨np, tmplUndef r.title, rfl, normalizePublisher_ne_empty hn⟩
      · have htr' : jsTruthy r.publisher = false := by
          revert htr
          cases jsTruthy r.publisher <;> simp
        simp only [htr', Bool.false_eq_true, if_false]
        exact hp

/-! ## Claim C1 — the embedded stage is terminal and authoritative -/

/-- C1: whenever the reader yields a record whose series field is non-null
(and hence non-empty, as `parseComicInfo` maps empty markup fields to
`null`; likewise a parsed year is never the falsy `0`), `getComicMetadata`
returns from the embedded stage with source `comicinfo-xml`, confidence
`highest`, the embedded series, the embedded number (falling back to the
filename-derived issue number), the embedded year (falling back to the
filename-derived year), and folder `{normalizedPublisher}/{series}` or
`Unsorted/{series}`; the lookup client is never invoked, regardless of the
`useApi` flag or the filename. -/
theorem claim_C1_embedded_terminal
    (filename p : String) (useApi : Bool)
    (reader : String → Option ComicInfo) (lookup : String → Option ApiResult)
    (ci : ComicInfo) (s : String)
    (hr : reader p = some ci) (hs : ci.series = some s) (hs' : s ≠ "")
    (hy : ci.year ≠ some 0) :
    (getComicMetadata filename useApi (some p) reader lookup).apiCalled = false ∧
    (getComicMetadata filename useApi (some p) reader lookup).patternReached = false ∧
    (getComicMetadata filename useApi (some p) reader lookup).record.source
      = "comicinfo-xml" ∧
    (getComicMetadata filename useApi (some p) reader lookup).record.confidence
      = "highest" ∧
    (getComicMetadata filename useApi (some p) reader lookup).record.series
      = some s ∧
    (getComicMetadata filename useApi (some p) reader lookup).record.issueNumber
      = (match ci.number with
         | some n => some n
         | none => (extractIssueNumber filename).map (fun n => (n : ℚ))) ∧
    (getComicMetadata filename useApi (some p) reader lookup).record.year
      = (match ci.year with
         | some y => some y
         | none => (extractYear filename).map (fun n => (n : Int))) ∧
    (getComicMetadata filename useApi (some p) reader lookup).record.suggestedFolder
      = some ((match normalizePublisher (jsOr ci.publisher ci.imprint) with
               | some np => np ++ "/"
               | none => "Unsorted/") ++ s) := by
  simp only [getComicMetadata, hr, hs, jsTruthy_eq_true hs', if_true]
  refine ⟨trivial, trivial, rfl, rfl, ?_, ?_, ?_, ?_⟩
  · simp [comicInfoStage, hs]
  · simp only [comicInfoStage]
    simp [baseRecord]
  · simp only [comicInfoStage]
    cases hcy : ci.year with
    | none => simp [jsTruthyInt, baseRecord]
    | some y =>
      have hy0 : y ≠ 0 := by
        intro h0
        exact hy (by rw [hcy, h0])
      simp [jsTruthyInt, hy0]
  · simp only [comicInfoStage]
    cases hn : normalizePublisher (jsOr ci.publisher ci.imprint) with
    | none => simp [jsTruthy, tmplNull, hs]
    | some np =>
      have hnp : np ≠ "" := normalizePublisher_ne_empty hn
      simp [jsTruthy, hnp, tmplNull, hs]

/-- C1 witness: a concrete embedded Batman record wins over the filename
and the (never-called) lookup client. -/
theorem claim_C1_embedded_terminal_witness :
    (getComicMetadata "batman001.cbz" true (some "/p/batman001.cbz")
      readerBatman lookupNone).apiCalled = false ∧
    (getComicMetadata "batman001.cbz" true (some "/p/batman001.cbz")
      readerBatman lookupNone).record.source = "comicinfo-xml" ∧
    (getComicMetadata "batman001.cbz" true (some "/p/batman001.cbz")
      readerBatman lookupNone).record.series = some "Batman" ∧
    (getComicMetadata "batman001.cbz" true (some "/p/batman001.cbz")
      readerBatman lookupNone).record.suggestedFolder
      = some "DC Comics/Batman" := by
  have h := claim_C1_embedded_terminal "batman001.cbz" "/p/batman001.cbz" true
    readerBatman lookupNone ciBatman "Batman" rfl rfl (by decide) (by decide)
  refine ⟨h.1, h.2.2.1, h.2.2.2.2.1, ?_⟩
  rw [h.2.2.2.2.2.2.2]
  decide

/-! ## Claim C3 — the lookup stage is terminal on a publisher-bearing
result -/

/-- C3: when the embedded stage did not terminate, lookup is enabled and
returns a result with a (non-empty) publisher, the resolver finishes in the
lookup stage: an unrecognized publisher gives
`api-lookup-non-comic-publisher` / `medium` / `Unsorted`, a recognized one
gives `api-lookup` / `high` / `{normalizedPublisher}/{title}`; the pattern
stage is never reached. -/
theorem claim_C3_api_terminal
    (filename : String) (filePath : Option String)
    (reader : String → Option ComicInfo) (lookup : String → Option ApiResult)
    (r : ApiResult) (pub : String)
    (hE : embeddedHit filePath reader = false)
    (hL : lookup (cleanFilenameForLookup filename) = some r)
    (hP : r.publisher = some pub) (hP' : pub ≠ "") :
    (getComicMetadata filename true filePath reader lookup).patternReached
      = false ∧
    (normalizePublisher r.publisher = none →
      (getComicMetadata filename true filePath reader lookup).record.source
        = "api-lookup-non-comic-publisher" ∧
      (getComicMetadata filename true filePath reader lookup).record.confidence
        = "medium" ∧
      (getComicMetadata filename true filePath reader lookup).record.publisher
        = some "Unsorted" ∧
      (getComicMetadata filename true filePath reader lookup).record.series
        = r.title ∧
      (getComicMetadata filename true filePath reader lookup).record.suggestedFolder
        = some ("Unsorted/" ++ tmplUndef r.title)) ∧
    (normalizePublisher r.publisher ≠ none →
      (getComicMetadata filename true filePath reader lookup).record.source
        = "api-lookup" ∧
      (getComicMetadata filename true filePath reader lookup).record.confidence
        = "high" ∧
      (getComicMetadata filename true filePath reader lookup).record.publisher
        = normalizePublisher r.publisher ∧
      (getComicMetadata filename true filePath reader lookup).record.series
        = r.title ∧
      (getComicMetadata filename true filePath reader lookup).record.suggestedFolder
        = some (tmplNull (normalizePublisher r.publisher) ++ "/"
            ++ tmplUndef r.title)) := by
  rw [getComicMetadata_embedded_miss filename true lookup hE]
  have htr : jsTruthy r.publisher = true := by rw [hP]; exact jsTruthy_eq_true hP'
  simp only [apiStage, hL, htr, if_true]
  cases hn : normalizePublisher r.publisher with
  | none =>
    refine ⟨rfl, fun _ => ⟨rfl, rfl, rfl, rfl, rfl⟩, fun hne => absurd rfl hne⟩
  | some np =>
    refine ⟨rfl, fun hno => Option.noConfusion hno, fun _ => ⟨rfl, rfl, rfl, rfl, ?_⟩⟩
    simp [tmplNull]

/-- C3 witness: the two lookup outcomes at concrete inputs (an unrecognized
publisher routed to `Unsorted`, a recognized one normalized). -/
theorem claim_C3_api_terminal_witness :
    (getComicMetadata "Some Book.cbz" true none readerNone
      lookupRandomHouse).record.source = "api-lookup-non-comic-publisher" ∧
    (getComicMetadata "Some Book.cbz" true none readerNone
      lookupRandomHouse).record.publisher = some "Unsorted" ∧
    (getComicMetadata "Some Book.cbz" true none readerNone
      lookupRandomHouse).record.suggestedFolder = some "Unsorted/Some Book" ∧
    (getComicMetadata "Spider-Man #001.cbz" true none readerNone
      lookupMarvel).record.source = "api-lookup" ∧
    (getComicMetadata "Spider-Man #001.cbz" true none readerNone
      lookupMarvel).record.suggestedFolder = some "Marvel/Spider-Man" ∧
    (getComicMetadata "Spider-Man #001.cbz" true none readerNone
      lookupMarvel).patternReached = false := by
  have h1 := claim_C3_api_terminal "Some Book.cbz" none readerNone
    lookupRandomHouse apiRandomHouse "Random House" rfl rfl rfl (by decide)
  have h2 := claim_C3_api_terminal "Spider-Man #001.cbz" none readerNone
    lookupMarvel apiMarvel "Marvel Comics" rfl rfl rfl (by decide)
  have h1' := h1.2.1 (by decide)
  have h2' := h2.2.2 (by decide)
  refine ⟨h1'.1, h1'.2.2.1, ?_, h2'.1, ?_, h2.1⟩
  · rw [h1'.2.2.2.2]
    decide
  · rw [h2'.2.2.2.2]
    decide

/-! ## Series-detection lemmas -/

theorem calculateSimilarity_self (s : String) : calculateSimilarity s s = 1 := by
  simp [calculateSimilarity]

theorem groupPassGo_mem {fuel : Nat} :
    ∀ {l : List String} {g : SeriesGroup}, g ∈ groupPassGo fuel l →
      2 ≤ g.fileCount ∧ g.fileCount = g.files.length ∧ ∀ f ∈ g.files, f ∈ l := by
  induction fuel with
  | zero =>
    intro l g hg
    simp [groupPassGo] at hg
  | succ fuel ih =>
    intro l g hg
    cases l with
    | nil => simp [groupPassGo] at hg
    | cons f rest =>
      rw [groupPassGo] at hg
      simp only [List.mem_append] at hg
      cases hg with
      | inl h =>
        by_cases h2 : 2 ≤ (f :: rest.filter
            (fun x => decide (SIMILARITY_THRESHOLD ≤
              calculateSimilarity (candOf f) (candOf x)))).length
        · rw [if_pos h2] at h
          simp only [List.mem_singleton] at h
          subst h
          refine ⟨h2, rfl, ?_⟩
          intro x hx
          simp only [List.mem_cons] at hx ⊢
          cases hx with
          | inl hx => exact Or.inl hx
          | inr hx => exact Or.inr (List.mem_of_mem_filter hx)
        · rw [if_neg h2] at h
          simp at h
      | inr h =>
        obtain ⟨hc, hl, hsub⟩ := ih h
        refine ⟨hc, hl, ?_⟩
        intro x hx
        exact List.mem_cons_of_mem f (List.mem_of_mem_filter (hsub x hx))

theorem groupPassGo_disjoint {fuel : Nat} :
    ∀ {l : List String}, (groupPassGo fuel l).Pairwise
      (fun g1 g2 => ∀ pth, pth ∈ g1.files → pth ∈ g2.files → False) := by
  induction fuel with
  | zero =>
    intro l
    simp [groupPassGo]
  | succ fuel ih =>
    intro l
    cases l with
    | nil => simp [groupPassGo]
    | cons f rest =>
      rw [groupPassGo]
      refine List.pairwise_append.mpr ⟨?_, ih, ?_⟩
      · split
        · exact List.pairwise_singleton _ _
        · exact List.Pairwise.nil
      · intro g1 hg1 g2 hg2 pth hp1 hp2
        have hmem2 : pth ∈ rest.filter
            (fun x => !(decide (SIMILARITY_THRESHOLD ≤
              calculateSimilarity (candOf f) (candOf x)))) :=
          (groupPassGo_mem hg2).2.2 pth hp2
        have hno : decide (SIMILARITY_THRESHOLD ≤
            calculateSimilarity (candOf f) (candOf pth)) = false := by
          have := List.of_mem_filter hmem2
          simpa using this
        have hg1' : g1.files = f :: rest.filter
            (fun x => decide (SIMILARITY_THRESHOLD ≤
              calculateSimilarity (candOf f) (candOf x))) := by
          by_cases h2 : 2 ≤ (f :: rest.filter
              (fun x => decide (SIMILARITY_THRESHOLD ≤
                calculateSimilarity (candOf f) (candOf x)))).length
          · rw [if_pos h2] at hg1
            simp only [List.mem_singleton] at hg1
            rw [hg1]
          · rw [if_neg h2] at hg1
            simp at hg1
        rw [hg1'] at hp1
        simp only [List.mem_cons] at hp1
        cases hp1 with
        | inl hp1 =>
          subst hp1
          rw [calculateSimilarity_self] at hno
          have : decide (SIMILARITY_THRESHOLD ≤ (1 : ℚ)) = true := by decide
          rw [this] at hno
          exact Bool.noConfusion hno
        | inr hp1 =>
          have := List.of_mem_filter hp1
          rw [hno] at this
          exact Bool.noConfusion this

theorem insertByCountDesc_perm (g : SeriesGroup) (l : List SeriesGroup) :
    (insertByCountDesc g l).Perm (g :: l) := by
  induction l with
  | nil => exact List.Perm.refl _
  | cons h t ih =>
    rw [insertByCountDesc]
    split
    · exact List.Perm.refl _
    · exact (ih.cons h).trans (List.Perm.swap g h t)

theorem sortByCountDesc_perm_aux (l : List SeriesGroup) :
    ∀ acc : List SeriesGroup,
      (l.foldl (fun a g => insertByCountDesc g a) acc).Perm (acc ++ l) := by
  induction l with
  | nil => intro acc; simp
  | cons g t ih =>
    intro acc
    rw [List.foldl_cons]
    refine (ih (insertByCountDesc g acc)).trans ?_
    refine (((insertByCountDesc_perm g acc).append_right t).trans ?_)
    exact List.perm_middle.symm

theorem sortByCountDesc_perm (l : List SeriesGroup) :
    (sortByCountDesc l).Perm l := by
  simpa using sortByCountDesc_perm_aux l []

theorem insertByCountDesc_sorted {g : SeriesGroup} {l : List SeriesGroup}
    (hl : l.Pairwise (fun a b => b.fileCount ≤ a.fileCount)) :
    (insertByCountDesc g l).Pairwise (fun a b => b.fileCount ≤ a.fileCount) := by
  induction l with
  | nil => exact List.pairwise_singleton _ _
  | cons h t ih =>
    rw [insertByCountDesc]
    rcases List.pairwise_cons.mp hl with ⟨hh, ht⟩
    split
    · next hlt =>
      refine List.pairwise_cons.mpr ⟨?_, hl⟩
      intro x hx
      simp only [List.mem_cons] at hx
      cases hx with
      | inl hx => subst hx; omega
      | inr hx => have := hh x hx; omega
    · next hge =>
      refine List.pairwise_cons.mpr ⟨?_, ih ht⟩
      intro x hx
      have hx' : x ∈ g :: t := (insertByCountDesc_perm g t).mem_iff.mp hx
      simp only [List.mem_cons] at hx'
      cases hx' with
      | inl hx' => subst hx'; omega
      | inr hx' => exact hh x hx'

theorem sortByCountDesc_sorted_aux (l : List SeriesGroup) :
    ∀ acc : List SeriesGroup,
      acc.Pairwise (fun a b => b.fileCount ≤ a.fileCount) →
      (l.foldl (fun a g => insertByCountDesc g a) acc).Pairwise
        (fun a b => b.fileCount ≤ a.fileCount) := by
  induction l with
  | nil => intro acc h; simpa using h
  | cons g t ih =>
    intro acc h
    rw [List.foldl_cons]
    exact ih _ (insertByCountDesc_sorted h)

theorem sortByCountDesc_sorted (l : List SeriesGroup) :
    (sortByCountDesc l).Pairwise (fun a b => b.fileCount ≤ a.fileCount) :=
  sortByCountDesc_sorted_aux l [] List.Pairwise.nil

theorem detectSeriesGroups_mem {files : List String} {g : SeriesGroup}
    (hg : g ∈ detectSeriesGroups files) :
    2 ≤ g.fileCount ∧ g.fileCount = g.files.length ∧ ∀ f ∈ g.files, f ∈ files :=
  groupPassGo_mem ((sortByCountDesc_perm _).mem_iff.mp hg)

theorem detectSeriesGroups_disjoint (files : List String) :
    (detectSeriesGroups files).Pairwise
      (fun g1 g2 => ∀ pth, pth ∈ g1.files → pth ∈ g2.files → False) := by
  have hsym : Symmetric (fun g1 g2 : SeriesGroup =>
      ∀ pth, pth ∈ g1.files → pth ∈ g2.files → False) := by
    intro a b hab pth h1 h2
    exact hab pth h2 h1
  exact ((sortByCountDesc_perm (groupPassGo files.length files)).pairwise_iff
    (fun hab => hsym hab)).mpr groupPassGo_disjoint

/-! ## Claim C4 — nullability of `series` and `suggestedFolder` -/

/-- C4 counterexample: for `"Marvel Zzz.cbz"` (no series pattern, but the
publisher token `Marvel` is detected) the returned record has a null series
with source `publisher-detection` — not `filename-analysis` — and a
detected publisher, refuting “series is null only when the source is
filename-analysis and no publisher was detected”. -/
theorem claim_C4_counterexample :
    (getComicMetadata "Marvel Zzz.cbz" false none readerNone
      lookupNone).record.series = none ∧
    (getComicMetadata "Marvel Zzz.cbz" false none readerNone
      lookupNone).record.source = "publisher-detection" ∧
    (getComicMetadata "Marvel Zzz.cbz" false none readerNone
      lookupNone).record.source ≠ "filename-analysis" ∧
    (getComicMetadata "Marvel Zzz.cbz" false none readerNone
      lookupNone).record.publisher = some "Marvel" := by
  decide

/-- C4 (amended): for every record returned by `getComicMetadata` (with the
lookup client returning title-bearing results, as the Google Books volume
schema does), `suggestedFolder` is non-null, and `series` is null only when
the source is `filename-analysis` — where no publisher was detected — or
`publisher-detection` — where one was. -/
theorem claim_C4_series_folder_nullability
    (filename : String) (useApi : Bool) (filePath : Option String)
    (reader : String → Option ComicInfo) (lookup : String → Option ApiResult)
    (hTitle : ∀ q r, lookup q = some r → r.title ≠ none) :
    (getComicMetadata filename useApi filePath reader
      lookup).record.suggestedFolder ≠ none ∧
    ((getComicMetadata filename useApi filePath reader
        lookup).record.series = none →
      (getComicMetadata filename useApi filePath reader
        lookup).record.source = "filename-analysis" ∨
      (getComicMetadata filename useApi filePath reader
        lookup).record.source = "publisher-detection") ∧
    ((getComicMetadata filename useApi filePath reader
        lookup).record.source = "filename-analysis" →
      (getComicMetadata filename useApi filePath reader
        lookup).record.publisher = none) ∧
    ((getComicMetadata filename useApi filePath reader
        lookup).record.source = "publisher-detection" →
      (getComicMetadata filename useApi filePath reader
        lookup).record.publisher ≠ none) := by
  cases filePath with
  | none =>
    rw [getComicMetadata_embedded_miss filename useApi lookup
      (show embeddedHit none reader = false from rfl)]
    have h := apiStage_classify filename useApi lookup hTitle
    exact ⟨h.1, h.2.1, fun hs => (h.2.2.1 hs).1, h.2.2.2⟩
  | some p =>
    cases hrp : reader p with
    | none =>
      rw [getComicMetadata_embedded_miss filename useApi lookup
        (by simp only [embeddedHit]; rw [hrp])]
      have h := apiStage_classify filename useApi lookup hTitle
      exact ⟨h.1, h.2.1, fun hs => (h.2.2.1 hs).1, h.2.2.2⟩
    | some ci =>
      by_cases ht : jsTruthy ci.series = true
      · rw [getComicMetadata_embedded_hit filename useApi lookup rfl hrp ht]
        refine ⟨by simp [comicInfoStage], fun hser => ?_, fun hso => ?_,
          fun hso => ?_⟩
        · exact absurd hser (jsTruthy_ne_none ht)
        · simp [comicInfoStage] at hso
        · simp [comicInfoStage] at hso
      · have ht' : jsTruthy ci.series = false := by
          revert ht
          cases jsTruthy ci.series <;> simp
        rw [getComicMetadata_embedded_miss filename useApi lookup
          (by simp only [embeddedHit]; rw [hrp]; exact ht')]
        have h := apiStage_classify filename useApi lookup hTitle
        exact ⟨h.1, h.2.1, fun hs => (h.2.2.1 hs).1, h.2.2.2⟩

/-- C4 witness: the amended claim applied at a concrete input. -/
theorem claim_C4_series_folder_nullability_witness :
    (getComicMetadata "Zzz.cbz" false none readerNone
      lookupNone).record.suggestedFolder ≠ none ∧
    ((getComicMetadata "Zzz.cbz" false none readerNone
        lookupNone).record.source = "filename-analysis" →
      (getComicMetadata "Zzz.cbz" false none readerNone
        lookupNone).record.publisher = none) := by
  have h := claim_C4_series_folder_nullability "Zzz.cbz" false none readerNone
    lookupNone (fun _ _ hq => Option.noConfusion hq)
  exact ⟨h.1, h.2.2.1⟩

/-! ## Claim C5 — the shape of `suggestedFolder` -/

/-- C5 counterexample: for `"Zzz.cbz"` the record is exactly in the
filename-analysis no-publisher-no-series case, yet its folder is
`"Unsorted/Zzz"` — the publisher segment is *not* omitted: the folder
contains a `/` and differs from the bare cleaned name `"Zzz"`. -/
theorem claim_C5_counterexample :
    (getComicMetadata "Zzz.cbz" false none readerNone
      lookupNone).record.source = "filename-analysis" ∧
    (getComicMetadata "Zzz.cbz" false none readerNone
      lookupNone).record.publisher = none ∧
    (getComicMetadata "Zzz.cbz" false none readerNone
      lookupNone).record.series = none ∧
    (getComicMetadata "Zzz.cbz" false none readerNone
      lookupNone).record.cleanedName = "Zzz" ∧
    (getComicMetadata "Zzz.cbz" false none readerNone
      lookupNone).record.suggestedFolder = some "Unsorted/Zzz" ∧
    (getComicMetadata "Zzz.cbz" false none readerNone
      lookupNone).record.suggestedFolder
      ≠ some ((getComicMetadata "Zzz.cbz" false none readerNone
          lookupNone).record.cleanedName) ∧
    strIncludes "Unsorted/Zzz" "/" = true := by
  decide

/-- The pattern stage leaves `cleanedName` untouched. -/
theorem patternStage_cleanedName (filename cleanName : String) (base : MetaRecord) :
    (patternStage filename cleanName base).cleanedName = base.cleanedName := by
  cases hpm : detectSeriesFromPatterns filename with
  | some pr => simp [patternStage, hpm]
  | none =>
    by_cases hnd : jsTruthy (normalizePublisher (detectPublisher filename)) = true
    · simp [patternStage, hpm, hnd]
    · have hnd' : jsTruthy (normalizePublisher (detectPublisher filename)) = false := by
        revert hnd
        cases jsTruthy (normalizePublisher (detectPublisher filename)) <;> simp
      simp only [patternStage, hpm, hnd', Bool.false_eq_true, if_false]
      cases hb : base.suggestedFolder <;> simp [hb]

/-- The lookup-or-pattern tail leaves `cleanedName` untouched. -/
theorem apiStage_cleanedName (filename : String) (useApi : Bool)
    (lookup : String → Option ApiResult) (base : MetaRecord) :
    (apiStage useApi filename (cleanFilenameForLookup filename) lookup
      base).record.cleanedName = base.cleanedName := by
  cases useApi with
  | false =>
    simp only [apiStage, Bool.false_eq_true, if_false]
    exact patternStage_cleanedName _ _ _
  | true =>
    simp only [apiStage, if_true]
    cases hlk : lookup (cleanFilenameForLookup filename) with
    | none => exact patternStage_cleanedName _ _ _
    | some r =>
      by_cases htr : jsTruthy r.publisher = true
      · simp only [htr, if_true]
        cases hn : normalizePublisher r.publisher <;> rfl
      · have htr' : jsTruthy r.publisher = false := by
          revert htr
          cases jsTruthy r.publisher <;> simp
        simp only [htr', Bool.false_eq_true, if_false]
        exact patternStage_cleanedName _ _ _

/-- The resolver never alters `cleanedName`. -/
theorem getComicMetadata_cleanedName
    (filename : String) (useApi : Bool) (filePath : Option String)
    (reader : String → Option ComicInfo) (lookup : String → Option ApiResult) :
    (getComicMetadata filename useApi filePath reader lookup).record.cleanedName
      = cleanFilenameForLookup filename := by
  cases filePath with
  | none =>
    rw [getComicMetadata_embedded_miss filename useApi lookup
      (show embeddedHit none reader = false from rfl)]
    rw [apiStage_cleanedName]
    rfl
  | some p =>
    cases hrp : reader p with
    | none =>
      rw [getComicMetadata_embedded_miss filename useApi lookup
        (by simp only [embeddedHit]; rw [hrp])]
      rw [apiStage_cleanedName]
      rfl
    | some ci =>
      by_cases ht : jsTruthy ci.series = true
      · rw [getComicMetadata_embedded_hit filename useApi lookup rfl hrp ht]
        rfl
      · have ht' : jsTruthy ci.series = false := by
          revert ht
          cases jsTruthy ci.series <;> simp
        rw [getComicMetadata_embedded_miss filename useApi lookup
          (by simp only [embeddedHit]; rw [hrp]; exact ht')]
        rw [apiStage_cleanedName]
        rfl

/-- In the lookup-or-pattern tail, a `filename-analysis` record carries the
`Unsorted/{cleanedName}` fallback folder. -/
theorem apiStage_fa_folder (filename : String) (useApi : Bool)
    (lookup : String → Option ApiResult) :
    (apiStage useApi filename (cleanFilenameForLookup filename) lookup
        (baseRecord filename)).record.source = "filename-analysis" →
    (apiStage useApi filename (cleanFilenameForLookup filename) lookup
        (baseRecord filename)).record.suggestedFolder
      = some ("Unsorted/" ++ cleanFilenameForLookup filename) := by
  have hc := patternStage_classify filename (cleanFilenameForLookup filename)
    (baseRecord filename) rfl rfl
  cases useApi with
  | false =>
    simp only [apiStage, Bool.false_eq_true, if_false]
    exact fun hs => (hc.2.1 hs).2.2
  | true =>
    simp only [apiStage, if_true]
    cases hlk : lookup (cleanFilenameForLookup filename) with
    | none => exact fun hs => (hc.2.1 hs).2.2
    | some r =>
      by_cases htr : jsTruthy r.publisher = true
      · simp only [htr, if_true]
        cases hn : normalizePublisher r.publisher with
        | none => intro hso; simp at hso
        | some np => intro hso; simp at hso
      · have htr' : jsTruthy r.publisher = false := by
          revert htr
          cases jsTruthy r.publisher <;> simp
        simp only [htr', Bool.false_eq_true, if_false]
        exact fun hs => (hc.2.1 hs).2.2

/-- C5 (amended): every `suggestedFolder` splits at a `/` after a non-empty
first segment (a normalized publisher or `Unsorted`); in the sole
filename-analysis no-publisher-no-series case the folder is
`Unsorted/{cleanedName}` — the publisher segment is not omitted, and the
segment after the `/` may be empty when the cleaned name is. -/
theorem claim_C5_folder_shape
    (filename : String) (useApi : Bool) (filePath : Option String)
    (reader : String → Option ComicInfo) (lookup : String → Option ApiResult) :
    (∃ x y, (getComicMetadata filename useApi filePath reader
        lookup).record.suggestedFolder = some (x ++ "/" ++ y) ∧ x ≠ "") ∧
    ((getComicMetadata filename useApi filePath reader
        lookup).record.source = "filename-analysis" →
      (getComicMetadata filename useApi filePath reader
        lookup).record.suggestedFolder
        = some ("Unsorted/" ++ (getComicMetadata filename useApi filePath reader
            lookup).record.cleanedName)) := by
  rw [getComicMetadata_cleanedName filename useApi filePath reader lookup]
  cases filePath with
  | none =>
    rw [getComicMetadata_embedded_miss filename useApi lookup
      (show embeddedHit none reader = false from rfl)]
    exact ⟨apiStage_folder filename useApi lookup,
      apiStage_fa_folder filename useApi lookup⟩
  | some p =>
    cases hrp : reader p with
    | none =>
      rw [getComicMetadata_embedded_miss filename useApi lookup
        (by simp only [embeddedHit]; rw [hrp])]
      exact ⟨apiStage_folder filename useApi lookup,
        apiStage_fa_folder filename useApi lookup⟩
    | some ci =>
      by_cases ht : jsTruthy ci.series = true
      · rw [getComicMetadata_embedded_hit filename useApi lookup rfl hrp ht]
        constructor
        · simp only [comicInfoStage]
          by_cases hnp : jsTruthy (normalizePublisher
              (jsOr ci.publisher ci.imprint)) = true
          · simp only [hnp, if_true]
            exact ⟨_, _, rfl, tmplNull_truthy_ne_empty hnp⟩
          · have hnp' : jsTruthy (normalizePublisher
                (jsOr ci.publisher ci.imprint)) = false := by
              revert hnp
              cases jsTruthy (normalizePublisher (jsOr ci.publisher ci.imprint)) <;>
                simp
            simp only [hnp', Bool.false_eq_true, if_false]
            exact ⟨"Unsorted", tmplNull ci.series, rfl, by decide⟩
        · intro hso
          simp [comicInfoStage] at hso
      · have ht' : jsTruthy ci.series = false := by
          revert ht
          cases jsTruthy ci.series <;> simp
        rw [getComicMetadata_embedded_miss filename useApi lookup
          (by simp only [embeddedHit]; rw [hrp]; exact ht')]
        exact ⟨apiStage_folder filename useApi lookup,
          apiStage_fa_folder filename useApi lookup⟩

/-- C5 witness: the amended claim applied at a concrete input. -/
theorem claim_C5_folder_shape_witness :
    (∃ x y, (getComicMetadata "Zzz.cbz" false none readerNone
        lookupNone).record.suggestedFolder = some (x ++ "/" ++ y) ∧ x ≠ "") ∧
    (getComicMetadata "Zzz.cbz" false none readerNone
      lookupNone).record.suggestedFolder
      = some ("Unsorted/" ++ (getComicMetadata "Zzz.cbz" false none readerNone
          lookupNone).record.cleanedName) := by
  have h := claim_C5_folder_shape "Zzz.cbz" false none readerNone lookupNone
  exact ⟨h.1, h.2 (by decide)⟩

/-! ## Claim C2 — resolver metadata does not reach series detection -/

/-- C2: `detectSeriesGroups` is a function of the file list alone (it has
no resolver-metadata parameter), and on files whose names say `Batman` it
names the group `"Batman"` — resolver records claiming series `Superman`
for these files cannot influence it, contrary to the repository's own
tests, which call `detectSeriesGroups(files, metadataResults)` and expect
`"Superman"`. -/
theorem claim_C2_no_resolver_override :
    detectSeriesGroups ["/path/Batman #001.cbz", "/path/Batman #002.cbz"]
      = [{ seriesName := "Batman",
           files := ["/path/Batman #001.cbz", "/path/Batman #002.cbz"],
           fileCount := 2 }] ∧
    (detectSeriesGroups ["/path/Batman #001.cbz", "/path/Batman #002.cbz"]).map
      SeriesGroup.seriesName ≠ ["Superman"] := by
  decide

/-! ## Claim C7 — greedy single-pass clustering -/

/-- C7: `detectSeriesGroups` clusters greedily at threshold `1/2` in input
order: the three Batman files form exactly one group of three whose name
contains `Batman` (the shortest candidate, title-cased); three pairwise
dissimilar titles yield no group; every emitted group has at least two
members; and the output is sorted by descending member count. -/
theorem claim_C7_greedy_clustering :
    (∃ g, detectSeriesGroups
        ["Batman #001.cbz", "Batman #002.cbz", "Batman #003.cbz"] = [g] ∧
      g.fileCount = 3 ∧
      g.files = ["Batman #001.cbz", "Batman #002.cbz", "Batman #003.cbz"] ∧
      strIncludes g.seriesName "Batman" = true) ∧
    detectSeriesGroups
      ["Batman #001.cbz", "Superman #001.cbz", "Wonder Woman #001.cbz"] = [] ∧
    (∀ files : List String, ∀ g ∈ detectSeriesGroups files, 2 ≤ g.fileCount) ∧
    (∀ files : List String, (detectSeriesGroups files).Pairwise
      (fun a b => b.fileCount ≤ a.fileCount)) := by
  refine ⟨⟨{ seriesName := "Batman",
             files := ["Batman #001.cbz", "Batman #002.cbz", "Batman #003.cbz"],
             fileCount := 3 }, by decide, by decide, by decide, by decide⟩,
    by decide, ?_, ?_⟩
  · intro files g hg
    exact (detectSeriesGroups_mem hg).1
  · intro files
    exact sortByCountDesc_sorted _

/-- C7 witness: the membership invariant applied at a concrete batch. -/
theorem claim_C7_greedy_clustering_witness :
    2 ≤ (SeriesGroup.mk "Batman"
        ["Batman #001.cbz", "Batman #002.cbz", "Batman #003.cbz"] 3).fileCount :=
  claim_C7_greedy_clustering.2.2.1
    ["Batman #001.cbz", "Batman #002.cbz", "Batman #003.cbz"]
    (SeriesGroup.mk "Batman"
      ["Batman #001.cbz", "Batman #002.cbz", "Batman #003.cbz"] 3)
    (by decide)

/-! ## Claim C10 — groups are disjoint with consistent counts -/

/-- C10: for every batch, the groups returned by `detectSeriesGroups` are
pairwise disjoint — no file path is a member of two groups — and each
group's `fileCount` equals the length of its `files` list. -/
theorem claim_C10_disjoint_counts (files : List String) :
    (detectSeriesGroups files).Pairwise
      (fun g1 g2 => ∀ pth, pth ∈ g1.files → pth ∈ g2.files → False) ∧
    ∀ g ∈ detectSeriesGroups files, g.fileCount = g.files.length := by
  refine ⟨detectSeriesGroups_disjoint files, ?_⟩
  intro g hg
  exact (detectSeriesGroups_mem hg).2.1

/-- C10 witness: the count invariant applied at a concrete batch. -/
theorem claim_C10_disjoint_counts_witness :
    (SeriesGroup.mk "Batman"
      ["/path/Batman #001.cbz", "/path/Batman #002.cbz"] 2).fileCount
      = (SeriesGroup.mk "Batman"
        ["/path/Batman #001.cbz", "/path/Batman #002.cbz"] 2).files.length :=
  (claim_C10_disjoint_counts
    ["/path/Batman #001.cbz", "/path/Batman #002.cbz"]).2
    (SeriesGroup.mk "Batman"
      ["/path/Batman #001.cbz", "/path/Batman #002.cbz"] 2)
    (by decide)

end ComicOrg
